import Mathlib

set_option maxHeartbeats 1000000

/-!
Verification development for the pushgateway repository.

The repository's visible source is src/main.go: flag definitions, the HTTP
route table, the internal self-observation metrics, the shutdown path and the
interrupt handler. The grouped metric store (package storage, type
DiskMetricStore) and the HTTP push/delete handlers (package handler) are
referenced by main.go but their code is not part of src/; where a claim is
decided by that missing code, the corresponding definitions below are modelled
from the specification and say so in their doc comment.
-/

/-! ## Data model of the grouped metric store -/

/-- A grouping key: an ordered sequence of (label name, label value) pairs. -/
abbrev GroupingKey := List (String × String)

/-- The closed set of metric kinds of the exposition format. -/
inductive MetricType
  | counter
  | gauge
  | histogram
  | summary
  | untyped
deriving DecidableEq, Repr

/-- One sample: a label set plus a numeric value. -/
structure Sample where
  labels : List (String × String)
  value : Int
deriving DecidableEq, Repr

/-- A metric family: name, help text, type and its samples. -/
structure MetricFamily where
  name : String
  help : String
  mtype : MetricType
  samples : List Sample
deriving DecidableEq, Repr

/-- One grouping key's current payload plus the time of last replacement. -/
structure MetricGroup where
  families : List MetricFamily
  timestamp : Nat
deriving DecidableEq, Repr

/-- Modelled from the spec: the Group Table of storage.DiskMetricStore
(spec section 3 and 4.2) is not under src/; it is the authoritative mapping
from grouping key to metric group, represented as an association list. -/
abbrev Store := List (GroupingKey × MetricGroup)

/-- Modelled from the spec: the Delete operation of storage.DiskMetricStore
(spec section 4.2) is not under src/; it removes the group at the key if
present and always succeeds (it is a total function, never an error). -/
def delete : Store → GroupingKey → Store
  | [], _ => []
  | kv :: rest, k => if kv.1 = k then delete rest k else kv :: delete rest k

/-- Modelled from the spec: the Push operation of storage.DiskMetricStore
(spec sections 3 and 4.2) is not under src/; on success it installs a new
MetricGroup at the key, wholly replacing any previous group (the old payload
is discarded, never merged field by field). -/
def push (s : Store) (k : GroupingKey) (fams : List MetricFamily) (t : Nat) : Store :=
  (k, ⟨fams, t⟩) :: delete s k

/-- Modelled from the spec: reading one grouping key's group from the table
snapshot (spec section 4.2, GetMetricFamilies is not under src/). -/
def lookupGroup : Store → GroupingKey → Option MetricGroup
  | [], _ => none
  | kv :: rest, k => if kv.1 = k then some kv.2 else lookupGroup rest k

/-! ## Helper lemmas about the store -/

theorem lookup_delete (s : Store) (k k' : GroupingKey) :
    lookupGroup (delete s k) k' = if k' = k then none else lookupGroup s k' := by
  induction s with
  | nil => by_cases h : k' = k <;> simp [delete, lookupGroup, h]
  | cons kv rest ih =>
    by_cases h1 : kv.1 = k
    · by_cases h2 : k' = k
      · subst h2
        simp [delete, lookupGroup, h1, ih]
      · have h3 : ¬ k = k' := fun hc => h2 hc.symm
        simp [delete, lookupGroup, h1, h2, h3, ih]
    · by_cases h2 : kv.1 = k'
      · have h3 : ¬ k' = k := fun hc => h1 (h2.trans hc)
        simp [delete, lookupGroup, h1, h2, h3]
      · simp [delete, lookupGroup, h1, h2, ih]

theorem delete_delete (s : Store) (k : GroupingKey) :
    delete (delete s k) k = delete s k := by
  induction s with
  | nil => rfl
  | cons kv rest ih =>
    by_cases h : kv.1 = k <;> simp [delete, h, ih]

theorem lookup_push (s : Store) (k k' : GroupingKey) (fams : List MetricFamily) (t : Nat) :
    lookupGroup (push s k fams t) k'
      = if k' = k then some ⟨fams, t⟩ else lookupGroup s k' := by
  by_cases h : k' = k
  · simp [push, lookupGroup, h]
  · have h2 : ¬ k = k' := fun hc => h hc.symm
    simp [push, lookupGroup, h, h2, lookup_delete]

/-! ## Serialized operation queue (Request Serializer) -/

/-- Modelled from the spec: one request of the Request Serializer's queue
(spec section 4.5); the serializer itself is not under src/. -/
inductive StoreOp
  | doPush (k : GroupingKey) (fams : List MetricFamily) (t : Nat)
  | doDelete (k : GroupingKey)
deriving DecidableEq, Repr

/-- The grouping key an operation targets. -/
def opKey : StoreOp → GroupingKey
  | .doPush k _ _ => k
  | .doDelete k => k

/-- Modelled from the spec: the single owner applies one operation to the
table (spec section 4.5). -/
def applyOp (s : Store) : StoreOp → Store
  | .doPush k fams t => push s k fams t
  | .doDelete k => delete s k

/-- Modelled from the spec: the Request Serializer processes its queue one
operation at a time, in order (spec section 4.5). -/
def runOps (s : Store) (ops : List StoreOp) : Store :=
  ops.foldl applyOp s

theorem lookup_runOps_of_not_mem (ops : List StoreOp) (s : Store) (k : GroupingKey)
    (h : k ∉ ops.map opKey) :
    lookupGroup (runOps s ops) k = lookupGroup s k := by
  induction ops generalizing s with
  | nil => rfl
  | cons op rest ih =>
    rw [List.map_cons, List.mem_cons, not_or] at h
    have hstep : runOps s (op :: rest) = runOps (applyOp s op) rest := rfl
    rw [hstep, ih (applyOp s op) h.2]
    cases op with
    | doPush k0 fams t =>
      have hk : ¬ k = k0 := h.1
      rw [applyOp, lookup_push, if_neg hk]
    | doDelete k0 =>
      have hk : ¬ k = k0 := h.1
      rw [applyOp, lookup_delete, if_neg hk]

/-! ## Debounced persistence writes (Persistence Manager) -/

/-- Modelled from the spec: the Persistence Manager's debounce loop (spec
section 4.4b) is not under src/. Given the time of the last write and the
ordered times at which the table was marked dirty, a dirty mark at time t
produces a write at time max t (lastWrite + interval); every dirty mark at or
before that write time is absorbed by it (coalesced), and only marks strictly
after it schedule further writes. The fuel argument (one unit per mark)
makes the recursion structural; each step consumes at least one mark. -/
def writeTimesAux (d : Nat) : Nat → Nat → List Nat → List Nat
  | 0, _, _ => []
  | _ + 1, _, [] => []
  | fuel + 1, lastW, t :: ts =>
    max t (lastW + d) ::
      writeTimesAux d fuel (max t (lastW + d))
        (ts.filter fun u => decide (max t (lastW + d) < u))

/-- Modelled from the spec: the times at which the Persistence Manager writes
the snapshot file, given the last-write time and the ordered dirty-mark
times (spec section 4.4b). -/
def writeTimes (d lastW : Nat) (marks : List Nat) : List Nat :=
  writeTimesAux d marks.length lastW marks

theorem chain_writeTimesAux (d fuel : Nat) :
    ∀ (lastW : Nat) (ts : List Nat),
      List.Chain' (fun a b => a + d ≤ b) (lastW :: writeTimesAux d fuel lastW ts) := by
  induction fuel with
  | zero => intro lastW ts; simp [writeTimesAux]
  | succ n ih =>
    intro lastW ts
    cases ts with
    | nil => simp [writeTimesAux]
    | cons t ts' =>
      rw [writeTimesAux, List.chain'_cons]
      exact ⟨le_max_right _ _, ih _ _⟩

/-! ## Event trace of main (src/main.go) -/

/-- The externally ordered events of main (src/main.go lines 80 to 131). -/
inductive MainEvent
  | flagParse
  | routesRegistered
  | listenBind
  | fatalExit
  | signalReceived
  | listenerClosed
  | serveReturned
  | graceSleepSeconds (n : Nat)
  | storeShutdownFlush
  | shutdownErrorLogged
  | processExit
deriving DecidableEq, Repr

/-- Events after a SIGINT or SIGTERM arrives while serving: interruptHandler
(src/main.go lines 125 to 131) closes the listener, Serve returns, main
sleeps one second, calls ms.Shutdown (a failure is only logged), and returns.
The flush performed inside Shutdown is the store's contract (spec section
4.4c); Shutdown itself is not under src/. -/
def shutdownTail (shutdownFails : Bool) : List MainEvent :=
  [MainEvent.signalReceived, MainEvent.listenerClosed, MainEvent.serveReturned,
   MainEvent.graceSleepSeconds 1, MainEvent.storeShutdownFlush]
    ++ (if shutdownFails then [MainEvent.shutdownErrorLogged] else [])
    ++ [MainEvent.processExit]

/-- The event trace of one run of main (src/main.go lines 80 to 123):
if net.Listen fails, log.Fatal terminates the process at once (lines 109 to
112); otherwise the run ends through the signal-driven shutdown path. -/
def mainTrace (listenFails shutdownFails : Bool) : List MainEvent :=
  if listenFails then
    [MainEvent.flagParse, MainEvent.routesRegistered, MainEvent.listenBind,
     MainEvent.fatalExit]
  else
    [MainEvent.flagParse, MainEvent.routesRegistered, MainEvent.listenBind]
      ++ shutdownTail shutdownFails

/-! ## HTTP route table (src/main.go lines 92 to 103) -/

/-- The HTTP methods main registers against the pat multiplexer. -/
inductive HttpMethod
  | get
  | put
  | post
  | del
deriving DecidableEq, Repr

/-- The core operation a route invokes on the store. -/
inductive CoreOp
  | pushGroup
  | deleteGroup
  | scrape
deriving DecidableEq, Repr

/-- The route table registered by main (src/main.go lines 92 to 103), in
source order: GET /metrics renders the exposition (DefaultHandler after
updateInternalMetrics), PUT and POST invoke handler.Push, Del invokes
handler.Delete, for the job+instance path and the job-only path. -/
def routes : List (HttpMethod × String × CoreOp) :=
  [(HttpMethod.get, "/metrics", CoreOp.scrape),
   (HttpMethod.put, "/metrics/job/:job/instance/:instance", CoreOp.pushGroup),
   (HttpMethod.post, "/metrics/job/:job/instance/:instance", CoreOp.pushGroup),
   (HttpMethod.del, "/metrics/job/:job/instance/:instance", CoreOp.deleteGroup),
   (HttpMethod.put, "/metrics/job/:job", CoreOp.pushGroup),
   (HttpMethod.post, "/metrics/job/:job", CoreOp.pushGroup),
   (HttpMethod.del, "/metrics/job/:job", CoreOp.deleteGroup)]

/-- The HTTP surface as the specification's table states it (spec section 6),
row for row: PUT/POST on both path shapes push, DELETE on both path shapes
deletes, GET /metrics reads the merged exposition. -/
def specRoutes : List (HttpMethod × String × CoreOp) :=
  [(HttpMethod.put, "/metrics/job/:job/instance/:instance", CoreOp.pushGroup),
   (HttpMethod.post, "/metrics/job/:job/instance/:instance", CoreOp.pushGroup),
   (HttpMethod.put, "/metrics/job/:job", CoreOp.pushGroup),
   (HttpMethod.post, "/metrics/job/:job", CoreOp.pushGroup),
   (HttpMethod.del, "/metrics/job/:job/instance/:instance", CoreOp.deleteGroup),
   (HttpMethod.del, "/metrics/job/:job", CoreOp.deleteGroup),
   (HttpMethod.get, "/metrics", CoreOp.scrape)]

/-! ## Configuration flags (src/main.go lines 22 to 25) -/

/-- What a configuration option controls. -/
inductive ConfigKind
  | listenAddress
  | persistencePath
  | persistenceInterval
deriving DecidableEq, Repr

/-- One registered command-line flag: name, default and help text as written
in the source, plus the kind of option it is. -/
structure ConfigFlag where
  name : String
  defaultValue : String
  help : String
  kind : ConfigKind
deriving DecidableEq, Repr

/-- The flags main registers (src/main.go lines 22 to 25): addr,
persistence.file and persistence.duration, with their literal defaults. -/
def configFlags : List ConfigFlag :=
  [⟨"addr", ":8080", "Address to listen on.", ConfigKind.listenAddress⟩,
   ⟨"persistence.file", "",
    "File to persist metrics. If empty, metrics are only kept in memory.",
    ConfigKind.persistencePath⟩,
   ⟨"persistence.duration", "5m0s",
    "Do not write the persistence file more often than that.",
    ConfigKind.persistenceInterval⟩]

/-- Modelled from the spec: storage.NewDiskMetricStore is not under src/;
per the spec (section 6) and the flag's own help text, an empty persistence
file path disables persistence entirely and metrics stay in memory only. -/
def persistenceEnabled (path : String) : Bool :=
  if path = "" then false else true

/-! ## Internal self-observation metrics (src/main.go lines 27 to 77, 139 to 151) -/

/-- The runtime statistic an internal metric reads. NumGoroutine is read
directly; the rest come from the runtime.MemStats filled in by
runtime.ReadMemStats. -/
inductive RuntimeStat
  | goroutineCount
  | allocBytes
  | totalAllocBytes
  | heapAllocBytes
  | nextGCBytes
  | pauseTotalNs
  | numGC
deriving DecidableEq, Repr

/-- The two client-library metric kinds used for the internal metrics. -/
inductive PromKind
  | gauge
  | counter
deriving DecidableEq, Repr

/-- One entry of the internalMetrics table: name, help, the statistic its
eval closure reads, and the kind of metric registered for it. -/
structure InternalMetric where
  name : String
  help : String
  stat : RuntimeStat
  kind : PromKind
deriving DecidableEq, Repr

/-- The internalMetrics table of src/main.go lines 28 to 77, entry for
entry, names and help strings verbatim (including the source's typo in the
GC pause help text). -/
def internalMetrics : List InternalMetric :=
  [⟨"instance_goroutine_count", "The number of goroutines that currently exist.",
    RuntimeStat.goroutineCount, PromKind.gauge⟩,
   ⟨"instance_allocated_bytes", "Bytes allocated and still in use.",
    RuntimeStat.allocBytes, PromKind.gauge⟩,
   ⟨"instance_total_allocated_bytes", "Bytes allocated (even if freed).",
    RuntimeStat.totalAllocBytes, PromKind.gauge⟩,
   ⟨"instance_heap_allocated_bytes", "Heap bytes allocated and still in use.",
    RuntimeStat.heapAllocBytes, PromKind.gauge⟩,
   ⟨"instance_gc_high_watermark_bytes", "Next run in HeapAlloc time (bytes).",
    RuntimeStat.nextGCBytes, PromKind.gauge⟩,
   ⟨"instance_gc_total_pause_ns", "Total GC paise time.",
    RuntimeStat.pauseTotalNs, PromKind.gauge⟩,
   ⟨"instance_gc_count", "GC count.",
    RuntimeStat.numGC, PromKind.counter⟩]

/-- One step taken while serving GET /metrics. -/
inductive ScrapeStep
  | readMemStats
  | setMetric (name : String)
  | render
deriving DecidableEq, Repr

/-- The steps of the GET /metrics handler (src/main.go lines 92 to 96):
updateInternalMetrics first (ReadMemStats, then one Set per entry of
internalMetrics, lines 139 to 151), then prometheus.DefaultHandler renders
the exposition. -/
def metricsGetSteps : List ScrapeStep :=
  (ScrapeStep.readMemStats ::
      internalMetrics.map fun im => ScrapeStep.setMetric im.name)
    ++ [ScrapeStep.render]

/-! ## Claim theorems -/

/-- Claim C1: a push to a key that already holds a group wholly replaces the
previous group. After pushing families A and then families B to key k, a read
of k yields exactly B's group (families B, the new timestamp) and none of A,
while every other key still reads what the original store held: the old
payload is discarded, never merged field by field. -/
theorem push_replaces_group_wholly (s : Store) (k k' : GroupingKey)
    (A B : List MetricFamily) (ta tb : Nat) :
    lookupGroup (push (push s k A ta) k B tb) k'
      = if k' = k then some ⟨B, tb⟩ else lookupGroup s k' := by
  rw [lookup_push, lookup_push]
  by_cases h : k' = k <;> simp [h]

/-- Claim C3: Delete is total (the model returns a store, never an error),
deleting a key twice equals deleting it once, after a delete the deleted key
reads nothing, and every other key — including keys that never existed —
reads exactly what it read before. -/
theorem delete_idempotent_and_isolated (s : Store) (k k' : GroupingKey) :
    delete (delete s k) k = delete s k ∧
    lookupGroup (delete s k) k' = (if k' = k then none else lookupGroup s k') :=
  ⟨delete_delete s k, lookup_delete s k k'⟩

/-- Claim C4: the Persistence Manager never writes more often than the
configured minimum interval d — along any sequence of dirty marks,
consecutive write times (and the first write after the last write lastW) are
at least d apart — and two dirty marks t1, t2 falling before the write the
first one schedules coalesce into exactly one write of the then-current
state, performed at max t1 (lastW + d), i.e. after the interval has elapsed
and not before either mark. -/
theorem persistence_debounce_coalesces (d lastW t1 t2 : Nat) (marks : List Nat)
    (h : t2 ≤ max t1 (lastW + d)) :
    List.Chain' (fun a b => a + d ≤ b) (lastW :: writeTimes d lastW marks) ∧
    writeTimes d lastW [t1, t2] = [max t1 (lastW + d)] ∧
    t1 ≤ max t1 (lastW + d) ∧ lastW + d ≤ max t1 (lastW + d) := by
  refine ⟨chain_writeTimesAux d marks.length lastW marks, ?_,
    le_max_left _ _, le_max_right _ _⟩
  have hfalse : decide (max t1 (lastW + d) < t2) = false :=
    decide_eq_false (Nat.not_lt.mpr h)
  have h2 : List.filter (fun u => decide (max t1 (lastW + d) < u)) [t2] = [] := by
    simp only [List.filter_cons, List.filter_nil, hfalse]
    rfl
  have hstep : writeTimes d lastW [t1, t2]
      = max t1 (lastW + d) ::
          writeTimesAux d 1 (max t1 (lastW + d))
            (List.filter (fun u => decide (max t1 (lastW + d) < u)) [t2]) := rfl
  rw [hstep, h2]
  rfl

/-- Witness for claim C4 at interval 10, last write 0, marks at 3 and 7:
the single coalesced write happens at time 10. -/
theorem persistence_debounce_coalesces_witness :
    List.Chain' (fun a b => a + 10 ≤ b) (0 :: writeTimes 10 0 [3, 7]) ∧
    writeTimes 10 0 [3, 7] = [max 3 (0 + 10)] ∧
    3 ≤ max 3 (0 + 10) ∧ 0 + 10 ≤ max 3 (0 + 10) :=
  persistence_debounce_coalesces 10 0 3 7 [3, 7] (by decide)

/-- Claim C5: the HTTP surface registered by main (src/main.go lines 92 to
103) maps exactly as the specification's table states it: the route tables
agree as multisets — PUT and POST on both path shapes push, Del/DELETE on
both path shapes deletes, GET /metrics renders the merged exposition, and
there is no other route. -/
theorem routes_match_spec_table : List.Perm routes specRoutes := by
  decide

/-- Claim C7: the recognized configuration options are exactly the listen
address (addr), the persistence file path (persistence.file, whose empty
default disables persistence and keeps metrics in memory only, as its help
text states) and the minimum interval between persistence writes
(persistence.duration). -/
theorem config_surface_exact :
    configFlags.map ConfigFlag.name
        = ["addr", "persistence.file", "persistence.duration"] ∧
    configFlags.map ConfigFlag.kind
        = [ConfigKind.listenAddress, ConfigKind.persistencePath,
           ConfigKind.persistenceInterval] ∧
    persistenceEnabled "" = false ∧
    persistenceEnabled "/tmp/pushgateway.state" = true := by
  refine ⟨rfl, rfl, rfl, rfl⟩

/-- Claim C10: the GET /metrics handler refreshes the internal
self-observation metrics before rendering: its step sequence is exactly one
ReadMemStats, then one Set per entry of the seven-element internalMetrics
table (each named instance_*), then the render of the exposition — so the
scrape output always includes these metrics alongside the pushed groups. -/
theorem metrics_get_refreshes_then_renders :
    internalMetrics.length = 7 ∧
    metricsGetSteps =
      [ScrapeStep.readMemStats,
       ScrapeStep.setMetric "instance_goroutine_count",
       ScrapeStep.setMetric "instance_allocated_bytes",
       ScrapeStep.setMetric "instance_total_allocated_bytes",
       ScrapeStep.setMetric "instance_heap_allocated_bytes",
       ScrapeStep.setMetric "instance_gc_high_watermark_bytes",
       ScrapeStep.setMetric "instance_gc_total_pause_ns",
       ScrapeStep.setMetric "instance_gc_count",
       ScrapeStep.render] ∧
    metricsGetSteps.getLast? = some ScrapeStep.render := by
  refine ⟨rfl, rfl, rfl⟩

/-- Claim C2: on a termination signal while serving, the trace of main first
records the signal, then the listener close (no new connections), then the
return of Serve and the one-second grace sleep for in-flight requests, then
the store shutdown with its final flush, and the process exit is the last
event — whether or not the shutdown flush fails. -/
theorem shutdown_signal_ordering (sf : Bool) :
    MainEvent.signalReceived ∈ mainTrace false sf ∧
    (mainTrace false sf).indexOf MainEvent.signalReceived
        < (mainTrace false sf).indexOf MainEvent.listenerClosed ∧
    (mainTrace false sf).indexOf MainEvent.listenerClosed
        < (mainTrace false sf).indexOf (MainEvent.graceSleepSeconds 1) ∧
    (mainTrace false sf).indexOf (MainEvent.graceSleepSeconds 1)
        < (mainTrace false sf).indexOf MainEvent.storeShutdownFlush ∧
    (mainTrace false sf).indexOf MainEvent.storeShutdownFlush
        < (mainTrace false sf).indexOf MainEvent.processExit ∧
    (mainTrace false sf).getLast? = some MainEvent.processExit := by
  cases sf <;> decide

/-- Claim C6: a failure of the final persistence write during shutdown is
logged but does not prevent exit: in the failing trace the error-log event
appears after the shutdown flush, and in both the failing and the successful
trace the process exit is still the last event. -/
theorem shutdown_flush_failure_still_exits :
    MainEvent.shutdownErrorLogged ∈ mainTrace false true ∧
    (mainTrace false true).indexOf MainEvent.storeShutdownFlush
        < (mainTrace false true).indexOf MainEvent.shutdownErrorLogged ∧
    (mainTrace false true).getLast? = some MainEvent.processExit ∧
    (mainTrace false false).getLast? = some MainEvent.processExit := by
  decide

/-- Claim C9: if binding the TCP listener fails, main terminates through
log.Fatal right after the bind attempt: the trace ends in the fatal exit and
contains neither the store shutdown flush nor the graceful process exit, so
no final persistence flush happens on that path. -/
theorem listen_failure_skips_shutdown (sf : Bool) :
    (mainTrace true sf).getLast? = some MainEvent.fatalExit ∧
    MainEvent.storeShutdownFlush ∉ mainTrace true sf ∧
    MainEvent.processExit ∉ mainTrace true sf := by
  cases sf <;> decide

/-- Claim C8: the Request Serializer processes operations one at a time in
queue order; a read returns a whole group (lookupGroup yields a complete
pushed payload, never a partial one), and when N pushes to pairwise distinct
keys are serialized in any order, a read taken after all of them shows every
one of the N groups: no lost updates. -/
theorem serialized_distinct_pushes_all_visible (s : Store)
    (ps : List (GroupingKey × List MetricFamily × Nat))
    (hnd : (ps.map Prod.fst).Nodup) :
    ∀ p ∈ ps,
      lookupGroup (runOps s (ps.map fun q => StoreOp.doPush q.1 q.2.1 q.2.2)) p.1
        = some ⟨p.2.1, p.2.2⟩ := by
  induction ps generalizing s with
  | nil => intro p hp; cases hp
  | cons q rest ih =>
    rw [List.map_cons, List.nodup_cons] at hnd
    intro p hp
    have hstep :
        runOps s ((q :: rest).map fun r => StoreOp.doPush r.1 r.2.1 r.2.2)
          = runOps (push s q.1 q.2.1 q.2.2)
              (rest.map fun r => StoreOp.doPush r.1 r.2.1 r.2.2) := rfl
    rw [hstep]
    cases hp with
    | head =>
      have hkeys : (rest.map fun r => StoreOp.doPush r.1 r.2.1 r.2.2).map opKey
          = rest.map Prod.fst := by
        rw [List.map_map]; rfl
      rw [lookup_runOps_of_not_mem _ _ _ (by rw [hkeys]; exact hnd.1),
        lookup_push, if_pos rfl]
    | tail _ hp' =>
      exact ih (push s q.1 q.2.1 q.2.2) hnd.2 p hp'

/-- Witness for claim C8: two pushes to the distinct keys job=a and job=b,
serialized in that order over the empty store; the read after both shows
both groups. -/
theorem serialized_distinct_pushes_all_visible_witness :
    lookupGroup
      (runOps []
        ([([("job", "a")], ([], 1)), ([("job", "b")], ([], 2))].map
          fun q => StoreOp.doPush q.1 q.2.1 q.2.2))
      [("job", "b")] = some ⟨[], 2⟩ :=
  serialized_distinct_pushes_all_visible []
    [([("job", "a")], ([], 1)), ([("job", "b")], ([], 2))]
    (by decide) ([("job", "b")], ([], 2)) (by decide)
